import Mathlib

/-!
# Verification of the stripe-sync-engine repository

Shallow embedding of the parts of the stripe-sync-engine repository that the
claims C1..C10 are about:

* the SQL exclusion constraint `one_active_run_per_account` on `_sync_run`
  and the composite unique constraint `_sync_status_resource_account_key`
  on `_sync_status` (migration files);
* the derived `status` column of the `sync_dashboard` view;
* `SupabaseDeployClient.runMigrations` (migration ledger runner);
* the webhook edge-function HTTP handlers
  (`packages/cli/src/edge-functions/stripe-webhook.ts` and the deploy
  template `getWebhookFunctionCode`);
* the managed-webhook lifecycle `findOrCreateManagedWebhook` and the
  webhook pipeline `processWebhook` (modelled from the specification,
  as their implementation lives outside the provided sources);
* the `schema` configuration default of the `StripeSync` constructor
  (modelled from the specification and its unit tests).
-/

namespace StripeSyncEngine

/-! ## String helpers

`strContainsSub hay needle` embeds JavaScript `hay.includes(needle)`:
case-sensitive substring containment. -/

/-- Does some suffix of `hay` start with `needle`? -/
def listContainsSub (needle : List Char) : List Char → Bool
  | [] => needle.isEmpty
  | c :: cs => needle.isPrefixOf (c :: cs) || listContainsSub needle cs

/-- JavaScript `hay.includes(needle)`: case-sensitive substring test. -/
def strContainsSub (hay needle : String) : Bool :=
  listContainsSub needle.data hay.data

/-! ## Webhook pipeline errors and `processWebhook`

`processWebhook` itself is implemented in the sync-engine package whose
source is not part of the provided files; modelled from the spec
(section 4.6): step 1 verifies the signature and on mismatch fails with a
signature error before any projection happens; otherwise the event is
projected into the database. The error carries the fields the TypeScript
callers inspect: `message` (optional in JS) and `type`
(Stripe's signature errors have type `StripeSignatureVerificationError`). -/

/-- A JavaScript error as seen by the edge-function `catch` blocks:
an optional `message` and a `type` field (empty for generic errors). -/
structure JsError where
  message : Option String
  etype : String
deriving DecidableEq, Repr

/-- The error Stripe's `constructEvent` throws on signature mismatch. -/
def signatureVerificationError : JsError :=
  { message := some "Webhook signature verification failed"
    etype := "StripeSignatureVerificationError" }

/-- Modelled from the spec: `processWebhook(rawBody, signatureHeader)`
(spec section 4.6) whose implementation is not among the provided sources.
Step 1 verifies the signature; on mismatch it fails with the signature
error and performs no projection (the database, modelled as the list of
projected events, is returned unchanged); on success it projects the
event. -/
def processWebhook (verifyOk : Bool) (event : String) (db : List String) :
    Except JsError Unit × List String :=
  if verifyOk then (Except.ok (), db ++ [event])
  else (Except.error signatureVerificationError, db)

/-! ## Webhook edge-function HTTP handlers

Embedded from `packages/cli/src/edge-functions/stripe-webhook.ts` and from
the deploy template `getWebhookFunctionCode` in the deploy client. -/

/-- An incoming HTTP request as the handlers see it: method, the
`stripe-signature` header (absent or present), and the raw body. -/
structure HttpRequest where
  method : String
  sigHeader : Option String
  body : String

/-- Outcome of one handler invocation: HTTP status, response body text,
resulting database state, and whether `processWebhook` was invoked. -/
structure HandlerResult where
  status : Nat
  respBody : String
  db : List String
  invoked : Bool
deriving Repr

/-- Embeds `isSignatureError` of `stripe-webhook.ts`:
`error.message?.includes('signature') || error.type === 'StripeSignatureVerificationError'`. -/
def isSignatureError (e : JsError) : Bool :=
  (match e.message with
   | some m => strContainsSub m "signature"
   | none => false) || e.etype == "StripeSignatureVerificationError"

/-- Embeds the `catch` branch of `stripe-webhook.ts`:
400 for signature verification failures, 500 for internal errors. -/
def edgeCatchStatus (e : JsError) : Nat :=
  if isSignatureError e then 400 else 500

/-- Embeds the `Deno.serve` handler of
`packages/cli/src/edge-functions/stripe-webhook.ts`: reject non-POST with
405; reject a missing `stripe-signature` header with 400 before calling
`processWebhook`; otherwise call `processWebhook` and map success to 200
and errors through `edgeCatchStatus`. -/
def edgeWebhookHandler (verifyOk : Bool) (req : HttpRequest) (db : List String) :
    HandlerResult :=
  if req.method != "POST" then
    { status := 405, respBody := "Method not allowed", db := db, invoked := false }
  else
    match req.sigHeader with
    | none =>
      { status := 400, respBody := "Missing stripe-signature header"
        db := db, invoked := false }
    | some _ =>
      match processWebhook verifyOk req.body db with
      | (Except.ok _, db2) =>
        { status := 200, respBody := "received", db := db2, invoked := true }
      | (Except.error e, db2) =>
        { status := edgeCatchStatus e, respBody := (e.message.getD "")
          db := db2, invoked := true }

/-- Embeds the `Deno.serve` handler of the deploy template
`getWebhookFunctionCode` (deploy client source): same method and
signature-header guards; its `catch` branch always answers 400. -/
def templateWebhookHandler (verifyOk : Bool) (req : HttpRequest) (db : List String) :
    HandlerResult :=
  if req.method != "POST" then
    { status := 405, respBody := "Method not allowed", db := db, invoked := false }
  else
    match req.sigHeader with
    | none =>
      { status := 400, respBody := "Missing stripe-signature header"
        db := db, invoked := false }
    | some _ =>
      match processWebhook verifyOk req.body db with
      | (Except.ok _, db2) =>
        { status := 200, respBody := "received", db := db2, invoked := true }
      | (Except.error e, db2) =>
        { status := 400, respBody := (e.message.getD ""), db := db2, invoked := true }

/-! ## Schema configuration default

Modelled from the spec (section 6: "`schema` (default `stripe`): database
namespace; empty string means no schema prefix") and the unit tests in
`packages/sync-engine/src/stripeSync.test.ts`: the constructor computes
`schema ?? 'stripe'` with JavaScript nullish coalescing, so only
`undefined`/`null` pick the default and the empty string is kept. -/

/-- Modelled from the spec: the schema name the `StripeSync` constructor
passes to `PostgresClient`. `none` models an omitted or `undefined`
option; `some s` models a provided string, including the empty string. -/
def resolveSchema (schema : Option String) : String :=
  match schema with
  | none => "stripe"
  | some s => s

/-! ## Constrained SQL tables

PostgreSQL semantics of a table under a row-uniqueness constraint: a
write statement commits only when the resulting table still satisfies the
constraint; a violating statement is rejected and leaves the table
unchanged. Both the exclusion constraint `one_active_run_per_account`
(on `_sync_run` where `closed_at IS NULL`) and the composite unique
constraint `_sync_status_resource_account_key` are instances of "no two
rows share a constrained key", for a key that may exempt rows (`none`). -/

/-- A row-level SQL write: insert a row, delete a row, update a row. -/
inductive TableOp (Row : Type) where
  | insert (r : Row)
  | deleteAt (i : Nat)
  | updateAt (i : Nat) (r : Row)

/-- The raw effect of a write, ignoring constraints. -/
def rawApply {Row : Type} : TableOp Row → List Row → List Row
  | .insert r, rows => rows ++ [r]
  | .deleteAt i, rows => rows.eraseIdx i
  | .updateAt i r, rows => rows.set i r

/-- A constrained write: commits only if the result satisfies `ok`;
otherwise the statement is rejected and the table is unchanged. -/
def applyGuarded {Row : Type} (ok : List Row → Bool) (op : TableOp Row)
    (rows : List Row) : List Row :=
  if ok (rawApply op rows) then rawApply op rows else rows

/-- Running a sequence of constrained writes from the empty table. -/
def execGuarded {Row : Type} (ok : List Row → Bool) (ops : List (TableOp Row)) :
    List Row :=
  ops.foldl (fun rows op => applyGuarded ok op rows) []

/-- Number of rows whose constrained key is `k` (rows with key `none`
are exempt, as under a partial constraint). -/
def keyCount {Row K : Type} [DecidableEq K] (key : Row → Option K) (k : K)
    (rows : List Row) : Nat :=
  (rows.filter (fun r => decide (key r = some k))).length

/-- The constraint check: no two distinct rows share a constrained key. -/
def keyUnique {Row K : Type} [DecidableEq K] (key : Row → Option K) :
    List Row → Bool
  | [] => true
  | r :: rs =>
    (match key r with
     | none => true
     | some k => rs.all (fun s => decide (key s ≠ some k))) && keyUnique key rs

/-! ## `_sync_run` and `one_active_run_per_account` (C1)

Embedded from the migration that adds the constraint:
`ALTER TABLE "stripe"."_sync_run" ADD CONSTRAINT one_active_run_per_account
EXCLUDE ("_account_id" WITH =) WHERE (closed_at IS NULL)`. -/

/-- A `_sync_run` row as relevant to the exclusion constraint. -/
structure SyncRunRow where
  account_id : String
  closed_at : Option Nat
deriving DecidableEq

/-- The key constrained by `one_active_run_per_account`: only rows with
`closed_at IS NULL` participate, keyed by `account_id`. -/
def activeRunKey (r : SyncRunRow) : Option String :=
  if r.closed_at.isNone then some r.account_id else none

/-- Embeds `one_active_run_per_account`: no two rows both have
`closed_at IS NULL` and equal `account_id`. -/
def oneActiveRunPerAccount (rows : List SyncRunRow) : Bool :=
  keyUnique activeRunKey rows

/-- Number of `_sync_run` rows of `account` with `closed_at IS NULL`. -/
def countActiveRuns (rows : List SyncRunRow) (account : String) : Nat :=
  (rows.filter (fun r => r.closed_at.isNone && decide (r.account_id = account))).length

/-- Any sequence of `_sync_run` writes under the exclusion constraint. -/
def execSyncRunOps (ops : List (TableOp SyncRunRow)) : List SyncRunRow :=
  execGuarded oneActiveRunPerAccount ops

/-! ## `_sync_status` and `_sync_status_resource_account_key` (C5)

Embedded from the migrations that add (and after the column rename
re-add) the constraint: `ADD CONSTRAINT _sync_status_resource_account_key
UNIQUE (resource, "account_id")`. -/

/-- A `_sync_status` row: the cursor map `(resource, account_id) ↦
last_synced_object_id`. -/
structure SyncStatusRow where
  resource : String
  account_id : String
  last_synced_object_id : Option String
deriving DecidableEq

/-- The key constrained by `_sync_status_resource_account_key`:
every row participates, keyed by `(resource, account_id)`. -/
def statusKey (r : SyncStatusRow) : Option (String × String) :=
  some (r.resource, r.account_id)

/-- Embeds `_sync_status_resource_account_key`: no two rows share
`(resource, account_id)`. -/
def syncStatusUnique (rows : List SyncStatusRow) : Bool :=
  keyUnique statusKey rows

/-- Number of `_sync_status` rows with the given resource and account. -/
def countStatusRows (rows : List SyncStatusRow) (resource account : String) : Nat :=
  (rows.filter (fun r =>
    decide (r.resource = resource) && decide (r.account_id = account))).length

/-- Any sequence of `_sync_status` writes under the unique constraint. -/
def execSyncStatusOps (ops : List (TableOp SyncStatusRow)) : List SyncStatusRow :=
  execGuarded syncStatusUnique ops

/-! ## The `sync_dashboard` view (C6)

Embedded from the `CREATE OR REPLACE VIEW "stripe"."sync_dashboard"`
statement: the derived `status` column is a `CASE` over the run's
`closed_at` and an `EXISTS` subquery on `_sync_obj_run` joined on
`_account_id` and `run_started_at`. -/

/-- A `_sync_obj_run` row as relevant to the `sync_dashboard` view. -/
structure SyncObjRun where
  account_id : String
  run_started_at : Nat
  object : String
  status : String
  error_message : Option String
  processed_count : Nat

/-- A `_sync_run` row as selected by the `sync_dashboard` view. -/
structure DashboardRun where
  account_id : String
  started_at : Nat
  closed_at : Option Nat

/-- The `EXISTS` subquery of the view: some `_sync_obj_run` row of the
same account and `run_started_at` has status `error`. -/
def hasErrorObj (r : DashboardRun) (objRuns : List SyncObjRun) : Bool :=
  objRuns.any (fun o =>
    decide (o.account_id = r.account_id) && decide (o.run_started_at = r.started_at) &&
      decide (o.status = "error"))

/-- Embeds the `CASE` expression deriving `status` in `sync_dashboard`. -/
def dashboardStatus (r : DashboardRun) (objRuns : List SyncObjRun) : String :=
  if r.closed_at.isNone then "running"
  else if hasErrorObj r objRuns then "error"
  else "complete"

/-! ## `SupabaseDeployClient.runMigrations` (C2)

Embedded from the deploy client: every `runSQL` call is one SQL statement
sent to the Management API endpoint, hence its own transaction. The
runner first creates the schema and the ledger table, then reads the
ledger once into `appliedSet`, then loops over the migrations: a name in
the snapshot is skipped; otherwise the migration's SQL is run by one
`runSQL` call and, if it succeeds, the ledger insert by another. An
exception from any `runSQL` call aborts the loop and propagates. -/

/-- One committed `runSQL` transaction of `runMigrations`. -/
inductive SqlTxn where
  | setup
  | readLedger
  | applyMigration (name sql : String)
  | recordMigration (name : String)
deriving DecidableEq

/-- Does this transaction consult the migration ledger? -/
def consultsLedger : SqlTxn → Bool
  | SqlTxn.readLedger => true
  | _ => false

/-- Does this transaction apply a migration's SQL? -/
def appliesMigration : SqlTxn → Bool
  | SqlTxn.applyMigration _ _ => true
  | _ => false

/-- Outcome of one `runMigrations` invocation: the returned value or the
propagated exception, the final ledger contents, the names of migrations
whose SQL committed, and the committed transactions in order. -/
structure MigrationOutcome where
  result : Except String (List String × List String)
  ledger : List String
  executed : List String
  trace : List SqlTxn

/-- The `for (const migration of migrations)` loop of `runMigrations`.
`snapshot` is the ledger read once before the loop (`appliedSet` in the
source) and is never re-read. `sqlOk` tells whether a migration's SQL
succeeds. A failed migration SQL commits nothing and aborts the run; a
successful one commits in its own transaction, after which the ledger
insert runs in a further transaction and fails if the name is already
present (UNIQUE constraint on `name`), also aborting the run. -/
def runMigsLoop (sqlOk : String → Bool) (snapshot : List String) :
    List (String × String) → List String → List String → List String →
      List String → List SqlTxn → MigrationOutcome
  | [], ledger, executed, applied, skipped, trace =>
    ⟨Except.ok (applied, skipped), ledger, executed, trace⟩
  | (name, sql) :: rest, ledger, executed, applied, skipped, trace =>
    if name ∈ snapshot then
      runMigsLoop sqlOk snapshot rest ledger executed applied (skipped ++ [name]) trace
    else if sqlOk sql then
      if name ∈ ledger then
        ⟨Except.error ("duplicate migration name: " ++ name), ledger,
          executed ++ [name], trace ++ [SqlTxn.applyMigration name sql]⟩
      else
        runMigsLoop sqlOk snapshot rest (ledger ++ [name]) (executed ++ [name])
          (applied ++ [name]) skipped
          (trace ++ [SqlTxn.applyMigration name sql, SqlTxn.recordMigration name])
    else
      ⟨Except.error ("migration failed: " ++ name), ledger, executed, trace⟩

/-- Embeds `SupabaseDeployClient.runMigrations`: setup statement, one
ledger read producing the snapshot, then the loop. -/
def runMigrations (migs : List (String × String)) (sqlOk : String → Bool)
    (initLedger : List String) : MigrationOutcome :=
  runMigsLoop sqlOk initLedger migs initLedger [] [] []
    [SqlTxn.setup, SqlTxn.readLedger]

/-! ## Managed-webhook lifecycle (C3, C7)

Modelled from the spec (section 4.7): the implementation of
`findOrCreateManagedWebhook` is not among the provided sources (only its
callers and a verification script are). The advisory lock of step 1
serializes concurrent callers, so N concurrent invocations execute as N
sequential invocations of the body; the model is that body. Provider
endpoints live in per-account namespaces, so every provider lookup or
scan is restricted to the acting account. -/

/-- A provider-side webhook endpoint. -/
structure Endpoint where
  id : String
  url : String
  managedBy : Option String
  description : Option String
  account_id : String
deriving DecidableEq

/-- A `_managed_webhooks` row. -/
structure LocalRow where
  id : String
  account_id : String
  url : String
deriving DecidableEq

/-- Provider endpoints, local `_managed_webhooks` rows, and a counter
from which fresh provider endpoint ids are drawn. -/
structure WebhookState where
  provider : List Endpoint
  localRows : List LocalRow
  nextId : Nat
deriving DecidableEq

/-- Collapse runs of spaces to one space; drop leading spaces. The flag
records whether the previous kept character position was a space. -/
def collapseWs : Bool → List Char → List Char
  | _, [] => []
  | prevSp, c :: cs =>
    if c = ' ' then
      if prevSp then collapseWs true cs else ' ' :: collapseWs true cs
    else c :: collapseWs false cs

/-- Modelled from the spec: whitespace normalization of a description. -/
def normalizeWs (s : String) : String :=
  ⟨collapseWs true s.data⟩

/-- Modelled from the spec (section 4.7 step 5): the backward-compatible
description formats of legacy development webhooks. -/
def legacyDescMatch : Option String → Bool
  | none => false
  | some d =>
    d == "stripe-sync-cli development webhook" || d == "Stripe Sync Development" ||
      "stripe sync".data.isPrefixOf (normalizeWs d).data

/-- Retrieve a provider endpoint by id with this account's credential
(`none` models the provider's not-found). -/
def lookupEndpoint (ps : List Endpoint) (acct i : String) : Option Endpoint :=
  ps.find? (fun e => e.account_id == acct && e.id == i)

/-- Modelled from the spec (section 4.7 step 2): local rows of this
account whose stored URL matches. -/
def localCandidates (st : WebhookState) (acct baseUrl : String) : List LocalRow :=
  st.localRows.filter (fun r => r.account_id == acct && r.url == baseUrl)

/-- Modelled from the spec (section 4.7 step 4): the row points at a
provider endpoint with the wanted URL owned by the engine. -/
def isValidPair (ps : List Endpoint) (acct baseUrl : String) (r : LocalRow) : Bool :=
  match lookupEndpoint ps acct r.id with
  | some e => e.url == baseUrl && e.managedBy == some "stripe-sync"
  | none => false

/-- Modelled from the spec (section 4.7 step 3): local rows of this
account and URL are reconciled against the provider; a row whose endpoint
is absent is deleted (orphan); a row whose endpoint has the wrong URL or
is not managed is deleted together with its endpoint (legacy). -/
def reconcile (st : WebhookState) (acct baseUrl : String) : WebhookState :=
  let invalid := (localCandidates st acct baseUrl).filter
    (fun r => !(isValidPair st.provider acct baseUrl r))
  let badIds := invalid.filterMap
    (fun r => (lookupEndpoint st.provider acct r.id).map Endpoint.id)
  { st with
    provider := st.provider.filter (fun e =>
      !(e.account_id == acct && badIds.contains e.id)),
    localRows := st.localRows.filter (fun r => !(invalid.contains r)) }

/-- The valid (local row, provider endpoint) pairs that remain
(section 4.7 step 4), as the endpoints to be returned. -/
def validPairs (st : WebhookState) (acct baseUrl : String) : List Endpoint :=
  (localCandidates st acct baseUrl).filterMap (fun r =>
    match lookupEndpoint st.provider acct r.id with
    | some e =>
      if e.url == baseUrl && e.managedBy == some "stripe-sync" then some e else none
    | none => none)

/-- Modelled from the spec (section 4.7 step 5): provider endpoints of
this account owned by the engine (`managed_by = "stripe-sync"`) or
matching a legacy description, that do not appear locally, are deleted
(cross-orphan cleanup). -/
def crossOrphanCleanup (st : WebhookState) (acct : String) : WebhookState :=
  let localIds := st.localRows.map LocalRow.id
  { st with
    provider := st.provider.filter (fun e =>
      !(e.account_id == acct && !(localIds.contains e.id) &&
        (e.managedBy == some "stripe-sync" || legacyDescMatch e.description))) }

/-- Modelled from the spec (section 4.7 step 6 and section 6): the fresh
endpoint: `url = baseUrl`, `metadata.managed_by = "stripe-sync"`,
description `"Stripe Sync managed webhook"`. -/
def newEndpoint (st : WebhookState) (acct baseUrl : String) : Endpoint :=
  ⟨"we_" ++ toString st.nextId, baseUrl, some "stripe-sync",
    some "Stripe Sync managed webhook", acct⟩

/-- Modelled from the spec (section 4.7): the body of
`findOrCreateManagedWebhook(baseUrl)` as run under the advisory lock:
reconcile, return a remaining valid pair if any, otherwise cross-orphan
cleanup followed by creation of the endpoint and its local row. -/
def findOrCreateManagedWebhook (acct baseUrl : String) (st : WebhookState) :
    Endpoint × WebhookState :=
  let st1 := reconcile st acct baseUrl
  match validPairs st1 acct baseUrl with
  | e :: _ => (e, st1)
  | [] =>
    let st2 := crossOrphanCleanup st1 acct
    let ep := newEndpoint st acct baseUrl
    (ep, { provider := st2.provider ++ [ep]
           localRows := st2.localRows ++ [⟨ep.id, acct, baseUrl⟩]
           nextId := st.nextId + 1 })

/-- N serialized invocations (the advisory lock serializes concurrent
callers): the endpoints handed back in order, and the final state. -/
def iterateFindOrCreate (acct baseUrl : String) : Nat → WebhookState →
    List Endpoint × WebhookState
  | 0, st => ([], st)
  | n + 1, st =>
    let r1 := findOrCreateManagedWebhook acct baseUrl st
    let rn := iterateFindOrCreate acct baseUrl n r1.2
    (r1.1 :: rn.1, rn.2)

/-- Provider endpoints of this account with the wanted URL owned by the
engine (`metadata.managed_by = "stripe-sync"`). -/
def countProviderMatches (st : WebhookState) (acct baseUrl : String) : Nat :=
  (st.provider.filter (fun e =>
    e.account_id == acct && e.url == baseUrl &&
      e.managedBy == some "stripe-sync")).length

/-- `_managed_webhooks` rows of this account with the wanted URL. -/
def countLocalMatches (st : WebhookState) (acct baseUrl : String) : Nat :=
  (localCandidates st acct baseUrl).length

/-- A clean starting state for `(acct, baseUrl)`: the account has no
provider endpoint and no local row with that URL yet, and the id counter
is fresh for the account. -/
def cleanFor (st : WebhookState) (acct baseUrl : String) : Prop :=
  (∀ e ∈ st.provider, ¬(e.account_id = acct ∧ e.url = baseUrl)) ∧
  (∀ r ∈ st.localRows, ¬(r.account_id = acct ∧ r.url = baseUrl)) ∧
  (∀ e ∈ st.provider, e.account_id = acct → e.id ≠ "we_" ++ toString st.nextId)

/-- The established situation after a successful creation: the account
has exactly the one local row for `baseUrl`, pointing at the endpoint
`ep`, which the provider returns for its id and which is valid. -/
def stableFor (st : WebhookState) (acct baseUrl : String) (ep : Endpoint) : Prop :=
  localCandidates st acct baseUrl = [⟨ep.id, acct, baseUrl⟩] ∧
  lookupEndpoint st.provider acct ep.id = some ep ∧
  ep.url = baseUrl ∧ ep.managedBy = some "stripe-sync"

/-! ## Helper lemmas -/

theorem keyCount_le_one {Row K : Type} [DecidableEq K] (key : Row → Option K)
    (rows : List Row) (h : keyUnique key rows = true) (k : K) :
    keyCount key k rows ≤ 1 := by
  induction rows with
  | nil => simp [keyCount]
  | cons r rs ih =>
    rw [keyUnique, Bool.and_eq_true] at h
    rcases h with ⟨h1, h2⟩
    by_cases hk : key r = some k
    · have hall : rs.all (fun s => decide (key s ≠ some k)) = true := by
        rw [hk] at h1
        simpa using h1
      have hzero : keyCount key k rs = 0 := by
        unfold keyCount
        rw [List.length_eq_zero, List.filter_eq_nil_iff]
        intro a ha
        have := List.all_eq_true.mp hall a ha
        simpa using this
      unfold keyCount
      rw [List.filter_cons]
      simp only [hk, decide_True]
      unfold keyCount at hzero
      simp [hzero]
    · unfold keyCount
      rw [List.filter_cons]
      simp only [hk, decide_False]
      exact ih h2

theorem keyUnique_foldl {Row K : Type} [DecidableEq K] (key : Row → Option K)
    (ops : List (TableOp Row)) (rows : List Row) (h : keyUnique key rows = true) :
    keyUnique key
      (ops.foldl (fun s op => applyGuarded (keyUnique key) op s) rows) = true := by
  induction ops generalizing rows with
  | nil => simpa using h
  | cons op rest ih =>
    rw [List.foldl_cons]
    apply ih
    unfold applyGuarded
    by_cases hok : keyUnique key (rawApply op rows) = true
    · simp [hok]
    · simpa [hok] using h

theorem keyUnique_execGuarded {Row K : Type} [DecidableEq K]
    (key : Row → Option K) (ops : List (TableOp Row)) :
    keyUnique key (execGuarded (keyUnique key) ops) = true :=
  keyUnique_foldl key ops [] rfl

theorem countActiveRuns_eq_keyCount (rows : List SyncRunRow) (a : String) :
    countActiveRuns rows a = keyCount activeRunKey a rows := by
  unfold countActiveRuns keyCount
  congr 1
  apply List.filter_congr
  intro r _
  cases hc : r.closed_at <;> simp [activeRunKey, hc]

theorem countStatusRows_eq_keyCount (rows : List SyncStatusRow) (res acct : String) :
    countStatusRows rows res acct = keyCount statusKey (res, acct) rows := by
  unfold countStatusRows keyCount
  congr 1
  apply List.filter_congr
  intro r _
  simp [statusKey, Prod.ext_iff]

theorem find?_append_right {α : Type} (p : α → Bool) (l1 l2 : List α)
    (h : ∀ a ∈ l1, p a = false) : (l1 ++ l2).find? p = l2.find? p := by
  induction l1 with
  | nil => rfl
  | cons a rest ih =>
    rw [List.cons_append, List.find?_cons, h a (List.mem_cons_self _ _)]
    exact ih fun b hb => h b (List.mem_cons_of_mem _ hb)

theorem localCandidates_nil_of_clean (st : WebhookState) (acct baseUrl : String)
    (h : cleanFor st acct baseUrl) : localCandidates st acct baseUrl = [] := by
  unfold localCandidates
  rw [List.filter_eq_nil_iff]
  intro r hr
  have hne := h.2.1 r hr
  simp only [Bool.and_eq_true, beq_iff_eq]
  intro hcon
  exact hne ⟨hcon.1, hcon.2⟩

theorem reconcile_eq_of_no_invalid (st : WebhookState) (acct baseUrl : String)
    (h : (localCandidates st acct baseUrl).filter
      (fun r => !(isValidPair st.provider acct baseUrl r)) = []) :
    reconcile st acct baseUrl = st := by
  unfold reconcile
  rw [h]
  simp

theorem reconcile_eq_of_candidates_nil (st : WebhookState) (acct baseUrl : String)
    (h : localCandidates st acct baseUrl = []) : reconcile st acct baseUrl = st := by
  apply reconcile_eq_of_no_invalid
  rw [h]
  rfl

theorem validPairs_nil_of_candidates_nil (st : WebhookState) (acct baseUrl : String)
    (h : localCandidates st acct baseUrl = []) : validPairs st acct baseUrl = [] := by
  unfold validPairs
  rw [h]
  rfl

theorem findOrCreate_of_clean (st : WebhookState) (acct baseUrl : String)
    (h : cleanFor st acct baseUrl) :
    findOrCreateManagedWebhook acct baseUrl st =
      (newEndpoint st acct baseUrl,
       { provider := (crossOrphanCleanup st acct).provider ++ [newEndpoint st acct baseUrl]
         localRows := st.localRows ++ [⟨(newEndpoint st acct baseUrl).id, acct, baseUrl⟩]
         nextId := st.nextId + 1 }) := by
  have hc := localCandidates_nil_of_clean st acct baseUrl h
  have hrec := reconcile_eq_of_candidates_nil st acct baseUrl hc
  simp only [findOrCreateManagedWebhook, hrec,
    validPairs_nil_of_candidates_nil st acct baseUrl hc]
  rfl

theorem counts_after_create (st : WebhookState) (acct baseUrl : String)
    (h : cleanFor st acct baseUrl) :
    countProviderMatches (findOrCreateManagedWebhook acct baseUrl st).2 acct baseUrl = 1 ∧
    countLocalMatches (findOrCreateManagedWebhook acct baseUrl st).2 acct baseUrl = 1 := by
  rw [findOrCreate_of_clean st acct baseUrl h]
  constructor
  · unfold countProviderMatches
    rw [List.filter_append]
    have h1 : ((crossOrphanCleanup st acct).provider.filter (fun e =>
        e.account_id == acct && e.url == baseUrl &&
          e.managedBy == some "stripe-sync")) = [] := by
      rw [List.filter_eq_nil_iff]
      intro e he
      have he' : e ∈ st.provider.filter (fun e =>
          !(e.account_id == acct && !((st.localRows.map LocalRow.id).contains e.id) &&
            (e.managedBy == some "stripe-sync" || legacyDescMatch e.description))) := he
      have hmem : e ∈ st.provider := (List.mem_filter.mp he').1
      have hne := h.1 e hmem
      simp only [Bool.and_eq_true, beq_iff_eq]
      intro hcon
      exact hne ⟨hcon.1.1, hcon.1.2⟩
    rw [h1]
    simp [newEndpoint]
  · unfold countLocalMatches localCandidates
    have hc := localCandidates_nil_of_clean st acct baseUrl h
    unfold localCandidates at hc
    rw [List.filter_append, hc]
    simp [newEndpoint]

theorem stable_after_create (st : WebhookState) (acct baseUrl : String)
    (h : cleanFor st acct baseUrl) :
    stableFor (findOrCreateManagedWebhook acct baseUrl st).2 acct baseUrl
      (newEndpoint st acct baseUrl) := by
  rw [findOrCreate_of_clean st acct baseUrl h]
  refine ⟨?_, ?_, rfl, rfl⟩
  · unfold localCandidates
    have hc := localCandidates_nil_of_clean st acct baseUrl h
    unfold localCandidates at hc
    rw [List.filter_append, hc]
    simp
  · unfold lookupEndpoint
    rw [find?_append_right]
    · simp [newEndpoint]
    · intro e he
      have he' : e ∈ st.provider.filter (fun e =>
          !(e.account_id == acct && !((st.localRows.map LocalRow.id).contains e.id) &&
            (e.managedBy == some "stripe-sync" || legacyDescMatch e.description))) := he
      have hmem : e ∈ st.provider := (List.mem_filter.mp he').1
      rw [Bool.eq_false_iff]
      intro hB
      rw [Bool.and_eq_true, beq_iff_eq, beq_iff_eq] at hB
      exact (h.2.2 e hmem hB.1) hB.2

theorem findOrCreate_of_stable (st : WebhookState) (acct baseUrl : String)
    (ep : Endpoint) (h : stableFor st acct baseUrl ep) :
    findOrCreateManagedWebhook acct baseUrl st = (ep, st) := by
  obtain ⟨hcand, hlook, hurl, hman⟩ := h
  have hvalidrow : isValidPair st.provider acct baseUrl ⟨ep.id, acct, baseUrl⟩ = true := by
    unfold isValidPair
    rw [hlook]
    simp [hurl, hman]
  have hinv : (localCandidates st acct baseUrl).filter
      (fun r => !(isValidPair st.provider acct baseUrl r)) = [] := by
    rw [hcand]
    simp [hvalidrow]
  have hrec := reconcile_eq_of_no_invalid st acct baseUrl hinv
  have hvp : validPairs st acct baseUrl = [ep] := by
    unfold validPairs
    rw [hcand, List.filterMap_cons]
    simp only []
    rw [hlook]
    simp [hurl, hman]
  simp only [findOrCreateManagedWebhook, hrec, hvp]

theorem iterate_of_stable (acct baseUrl : String) (ep : Endpoint) (n : Nat)
    (st : WebhookState) (h : stableFor st acct baseUrl ep) :
    iterateFindOrCreate acct baseUrl n st = (List.replicate n ep, st) := by
  induction n with
  | zero => rfl
  | succ m ih =>
    rw [iterateFindOrCreate, findOrCreate_of_stable st acct baseUrl ep h]
    simp [ih, List.replicate_succ]

theorem runMigsLoop_trace (sqlOk : String → Bool) (snapshot : List String)
    (migs : List (String × String)) (ledger ex ap sk : List String)
    (tr : List SqlTxn) :
    ∃ d, (runMigsLoop sqlOk snapshot migs ledger ex ap sk tr).trace = tr ++ d ∧
      d.all (fun t => !(consultsLedger t)) = true := by
  induction migs generalizing ledger ex ap sk tr with
  | nil => exact ⟨[], by simp [runMigsLoop], rfl⟩
  | cons p rest ih =>
    obtain ⟨name, sql⟩ := p
    by_cases h1 : name ∈ snapshot
    · simpa [runMigsLoop, h1] using ih ledger ex ap (sk ++ [name]) tr
    · by_cases h2 : sqlOk sql = true
      · by_cases h3 : name ∈ ledger
        · refine ⟨[SqlTxn.applyMigration name sql], ?_, ?_⟩
          · simp [runMigsLoop, h1, h2, h3]
          · simp [consultsLedger]
        · obtain ⟨d, hd, hall⟩ := ih (ledger ++ [name]) (ex ++ [name]) (ap ++ [name]) sk
            (tr ++ [SqlTxn.applyMigration name sql, SqlTxn.recordMigration name])
          refine ⟨[SqlTxn.applyMigration name sql, SqlTxn.recordMigration name] ++ d,
            ?_, ?_⟩
          · simp only [runMigsLoop, h1, h2, h3]
            simpa using hd
          · simpa [consultsLedger] using hall
      · refine ⟨[], ?_, rfl⟩
        simp [runMigsLoop, h1, h2]

theorem runMigsLoop_executed (sqlOk : String → Bool) (snapshot : List String)
    (migs : List (String × String)) (ledger ex ap sk : List String)
    (tr : List SqlTxn) :
    ∃ d, (runMigsLoop sqlOk snapshot migs ledger ex ap sk tr).executed = ex ++ d ∧
      List.Sublist d (migs.map Prod.fst) ∧
      ∀ n ∈ d, n ∉ snapshot ∧ ∃ s, (n, s) ∈ migs ∧ sqlOk s = true := by
  induction migs generalizing ledger ex ap sk tr with
  | nil => exact ⟨[], by simp [runMigsLoop], List.Sublist.refl _, by simp⟩
  | cons p rest ih =>
    obtain ⟨name, sql⟩ := p
    by_cases h1 : name ∈ snapshot
    · obtain ⟨d, hd, hsub, hp⟩ := ih ledger ex ap (sk ++ [name]) tr
      refine ⟨d, by simpa [runMigsLoop, h1] using hd, List.Sublist.cons _ hsub, ?_⟩
      intro n hn
      obtain ⟨hns, s, hmem, hok⟩ := hp n hn
      exact ⟨hns, s, List.mem_cons_of_mem _ hmem, hok⟩
    · by_cases h2 : sqlOk sql = true
      · by_cases h3 : name ∈ ledger
        · refine ⟨[name], by simp [runMigsLoop, h1, h2, h3],
            List.Sublist.cons₂ _ (List.nil_sublist _), ?_⟩
          intro n hn
          rw [List.mem_singleton] at hn
          subst hn
          exact ⟨h1, sql, List.mem_cons_self _ _, h2⟩
        · obtain ⟨d, hd, hsub, hp⟩ := ih (ledger ++ [name]) (ex ++ [name]) (ap ++ [name]) sk
            (tr ++ [SqlTxn.applyMigration name sql, SqlTxn.recordMigration name])
          refine ⟨name :: d, ?_, List.Sublist.cons₂ _ hsub, ?_⟩
          · simp only [runMigsLoop, h1, h2, h3]
            simpa using hd
          · intro n hn
            rcases List.mem_cons.mp hn with h | h
            · subst h
              exact ⟨h1, sql, List.mem_cons_self _ _, h2⟩
            · obtain ⟨hns, s, hmem, hok⟩ := hp n h
              exact ⟨hns, s, List.mem_cons_of_mem _ hmem, hok⟩
      · exact ⟨[], by simp [runMigsLoop, h1, h2], List.nil_sublist _, by simp⟩

theorem runMigsLoop_ledger_mem (sqlOk : String → Bool) (snapshot : List String)
    (migs : List (String × String)) (ledger ex ap sk : List String)
    (tr : List SqlTxn) :
    ∀ n, n ∈ (runMigsLoop sqlOk snapshot migs ledger ex ap sk tr).ledger →
      n ∈ ledger ∨ n ∈ (runMigsLoop sqlOk snapshot migs ledger ex ap sk tr).executed := by
  induction migs generalizing ledger ex ap sk tr with
  | nil =>
    intro n hn
    simp only [runMigsLoop] at hn
    exact Or.inl hn
  | cons p rest ih =>
    intro n hn
    obtain ⟨name, sql⟩ := p
    by_cases h1 : name ∈ snapshot
    · simp only [runMigsLoop, h1, if_true] at hn ⊢
      exact ih ledger ex ap (sk ++ [name]) tr n hn
    · by_cases h2 : sqlOk sql = true
      · by_cases h3 : name ∈ ledger
        · simp only [runMigsLoop, h1, h2, h3] at hn ⊢
          simp at hn ⊢
          exact Or.inl hn
        · simp only [runMigsLoop, h1, h2, h3, if_true, if_false, if_neg, if_pos] at hn ⊢
          rcases ih (ledger ++ [name]) (ex ++ [name]) (ap ++ [name]) sk
              (tr ++ [SqlTxn.applyMigration name sql, SqlTxn.recordMigration name]) n hn with
            h | h
          · rcases List.mem_append.mp h with h' | h'
            · exact Or.inl h'
            · rw [List.mem_singleton] at h'
              subst h'
              obtain ⟨d, hd, _, _⟩ := runMigsLoop_executed sqlOk snapshot rest
                (ledger ++ [n]) (ex ++ [n]) (ap ++ [n]) sk
                (tr ++ [SqlTxn.applyMigration n sql, SqlTxn.recordMigration n])
              refine Or.inr ?_
              rw [hd]
              exact List.mem_append_left _ (List.mem_append_right _ (List.mem_singleton.mpr rfl))
          · exact Or.inr h
      · simp only [runMigsLoop, h1, h2] at hn ⊢
        simp at hn ⊢
        exact Or.inl hn

theorem runMigsLoop_fail (sqlOk : String → Bool) (snapshot : List String)
    (migs : List (String × String)) :
    ∀ (ledger ex ap sk : List String) (tr : List SqlTxn) (name sql : String),
      (name, sql) ∈ migs → (∀ s, (name, s) ∈ migs → sqlOk s = false) →
      name ∉ snapshot →
      ∃ msg, (runMigsLoop sqlOk snapshot migs ledger ex ap sk tr).result =
        Except.error msg := by
  induction migs with
  | nil =>
    intro _ _ _ _ _ _ _ hmem _ _
    cases hmem
  | cons p rest ih =>
    intro ledger ex ap sk tr name sql hmem hfail hfresh
    rcases List.mem_cons.mp hmem with heq | hmem2
    · cases heq
      have hf : sqlOk sql = false := hfail sql (List.mem_cons_self _ _)
      refine ⟨"migration failed: " ++ name, ?_⟩
      simp [runMigsLoop, hfresh, hf]
    · obtain ⟨pn, ps⟩ := p
      by_cases h1 : pn ∈ snapshot
      · have h := ih ledger ex ap (sk ++ [pn]) tr name sql hmem2
          (fun s hs => hfail s (List.mem_cons_of_mem _ hs)) hfresh
        simpa [runMigsLoop, h1] using h
      · by_cases h2 : sqlOk ps = true
        · by_cases h3 : pn ∈ ledger
          · exact ⟨"duplicate migration name: " ++ pn, by simp [runMigsLoop, h1, h2, h3]⟩
          · have h := ih (ledger ++ [pn]) (ex ++ [pn]) (ap ++ [pn]) sk
              (tr ++ [SqlTxn.applyMigration pn ps, SqlTxn.recordMigration pn]) name sql hmem2
              (fun s hs => hfail s (List.mem_cons_of_mem _ hs)) hfresh
            simpa [runMigsLoop, h1, h2, h3] using h
        · exact ⟨"migration failed: " ++ pn, by simp [runMigsLoop, h1, h2]⟩

/-! ## Claim theorems -/

/-- C1: for every account and after any sequence of `_sync_run` writes
executed under the exclusion constraint `one_active_run_per_account`,
at most one `_sync_run` row of that account has `closed_at IS NULL`. -/
theorem claim_C1_one_active_run_per_account
    (ops : List (TableOp SyncRunRow)) (account : String) :
    countActiveRuns (execSyncRunOps ops) account ≤ 1 := by
  rw [countActiveRuns_eq_keyCount]
  exact keyCount_le_one activeRunKey _ (keyUnique_execGuarded activeRunKey ops) account

/-- C5: for every pair `(resource, account_id)` and after any sequence of
`_sync_status` writes executed under the composite unique constraint
`_sync_status_resource_account_key`, at most one `_sync_status` row has
that resource and account. -/
theorem claim_C5_sync_status_unique
    (ops : List (TableOp SyncStatusRow)) (resource account : String) :
    countStatusRows (execSyncStatusOps ops) resource account ≤ 1 := by
  rw [countStatusRows_eq_keyCount]
  exact keyCount_le_one statusKey _ (keyUnique_execGuarded statusKey ops) (resource, account)

theorem hasErrorObj_iff (r : DashboardRun) (os : List SyncObjRun) :
    hasErrorObj r os = true ↔
      ∃ o ∈ os, o.account_id = r.account_id ∧ o.run_started_at = r.started_at ∧
        o.status = "error" := by
  simp [hasErrorObj, and_assoc]

/-- C6: the `status` column derived by `sync_dashboard` equals `running`
exactly when the run's `closed_at` is null; otherwise it equals `error`
exactly when some associated `_sync_obj_run` row (same account and
`run_started_at`) has status `error`; otherwise it equals `complete`. -/
theorem claim_C6_dashboard_status (r : DashboardRun) (os : List SyncObjRun) :
    (dashboardStatus r os = "running" ↔ r.closed_at = none) ∧
    (r.closed_at ≠ none →
      (dashboardStatus r os = "error" ↔
        ∃ o ∈ os, o.account_id = r.account_id ∧ o.run_started_at = r.started_at ∧
          o.status = "error")) ∧
    (r.closed_at ≠ none →
      (dashboardStatus r os = "complete" ↔
        ¬ ∃ o ∈ os, o.account_id = r.account_id ∧ o.run_started_at = r.started_at ∧
          o.status = "error")) := by
  cases hc : r.closed_at with
  | none => simp [dashboardStatus, hc]
  | some t =>
    by_cases he : hasErrorObj r os = true
    · have hx := (hasErrorObj_iff r os).mp he
      simp [dashboardStatus, hc, he, hx]
    · have hx : ¬ ∃ o ∈ os, o.account_id = r.account_id ∧
          o.run_started_at = r.started_at ∧ o.status = "error" :=
        fun h => he ((hasErrorObj_iff r os).mpr h)
      simp [dashboardStatus, hc, he, hx]

/-- C6 witness: a closed run whose single object row errored derives
status `error`, instantiating the theorem at concrete inputs. -/
theorem claim_C6_dashboard_status_witness :
    dashboardStatus ⟨"acct_1", 5, some 9⟩
        [⟨"acct_1", 5, "customer", "error", some "boom", 3⟩] = "error" := by
  have h := claim_C6_dashboard_status ⟨"acct_1", 5, some 9⟩
    [⟨"acct_1", 5, "customer", "error", some "boom", 3⟩]
  exact (h.2.1 (by decide)).mpr ⟨⟨"acct_1", 5, "customer", "error", some "boom", 3⟩,
    by simp, rfl, rfl, rfl⟩

/-- C8: when the `schema` option is omitted or undefined the engine uses
the schema name `stripe`; when it is the empty string the engine keeps
the empty string rather than substituting the default. -/
theorem claim_C8_schema_default :
    resolveSchema none = "stripe" ∧ resolveSchema (some "") = "" ∧
      (∀ s, resolveSchema (some s) = s) :=
  ⟨rfl, rfl, fun _ => rfl⟩

/-- C9: for every POST request whose `stripe-signature` header is absent,
both webhook edge-function handlers answer 400 with body
`Missing stripe-signature header`, never invoke `processWebhook`, and
leave the database unchanged. -/
theorem claim_C9_missing_signature (verifyOk : Bool) (req : HttpRequest)
    (db : List String) (hm : req.method = "POST") (hs : req.sigHeader = none) :
    (edgeWebhookHandler verifyOk req db).status = 400 ∧
    (edgeWebhookHandler verifyOk req db).respBody = "Missing stripe-signature header" ∧
    (edgeWebhookHandler verifyOk req db).invoked = false ∧
    (edgeWebhookHandler verifyOk req db).db = db ∧
    (templateWebhookHandler verifyOk req db).status = 400 ∧
    (templateWebhookHandler verifyOk req db).respBody = "Missing stripe-signature header" ∧
    (templateWebhookHandler verifyOk req db).invoked = false ∧
    (templateWebhookHandler verifyOk req db).db = db := by
  simp [edgeWebhookHandler, templateWebhookHandler, hm, hs]

/-- C9 witness: the theorem applied to a concrete POST request with no
`stripe-signature` header. -/
theorem claim_C9_missing_signature_witness :
    ("POST" : String) = "POST" ∧
    (edgeWebhookHandler true ⟨"POST", none, "evt"⟩ ["row0"]).status = 400 ∧
    (edgeWebhookHandler true ⟨"POST", none, "evt"⟩ ["row0"]).invoked = false := by
  have h := claim_C9_missing_signature true ⟨"POST", none, "evt"⟩ ["row0"] rfl rfl
  exact ⟨rfl, h.1, h.2.2.1⟩

/-- C10: in the CLI webhook edge function, an error from `processWebhook`
is answered with status 400 exactly when its message contains the
substring `signature` or its type is `StripeSignatureVerificationError`;
every other error is answered with status 500. -/
theorem claim_C10_error_status (e : JsError) :
    (edgeCatchStatus e = 400 ↔
      ((∃ m, e.message = some m ∧ strContainsSub m "signature" = true) ∨
        e.etype = "StripeSignatureVerificationError")) ∧
    (edgeCatchStatus e = 500 ↔
      ¬ ((∃ m, e.message = some m ∧ strContainsSub m "signature" = true) ∨
        e.etype = "StripeSignatureVerificationError")) := by
  have hiff : isSignatureError e = true ↔
      ((∃ m, e.message = some m ∧ strContainsSub m "signature" = true) ∨
        e.etype = "StripeSignatureVerificationError") := by
    unfold isSignatureError
    cases hm : e.message <;> simp [hm]
  constructor
  · rw [← hiff]
    unfold edgeCatchStatus
    by_cases h : isSignatureError e = true <;> simp [h]
  · rw [← hiff]
    unfold edgeCatchStatus
    by_cases h : isSignatureError e = true <;> simp [h]

/-- C4: when webhook signature verification fails, `processWebhook` fails
with the signature error and writes nothing (the database is unchanged),
and the edge-function caller surfaces HTTP status 400. -/
theorem claim_C4_signature_error (req : HttpRequest) (db : List String)
    (hm : req.method = "POST") (hs : req.sigHeader ≠ none) :
    (processWebhook false req.body db).1 = Except.error signatureVerificationError ∧
    (processWebhook false req.body db).2 = db ∧
    (edgeWebhookHandler false req db).status = 400 ∧
    (edgeWebhookHandler false req db).db = db := by
  obtain ⟨s, hsome⟩ := Option.ne_none_iff_exists'.mp hs
  refine ⟨rfl, rfl, ?_, ?_⟩
  · simp only [edgeWebhookHandler, hm, hsome]
    simp [processWebhook, edgeCatchStatus, isSignatureError,
      signatureVerificationError]
  · simp only [edgeWebhookHandler, hm, hsome]
    simp [processWebhook]

/-- C4 witness: the theorem applied to a concrete POST request carrying a
bad signature over an empty database. -/
theorem claim_C4_signature_error_witness :
    (some "bad-sig" ≠ (none : Option String)) ∧
    (edgeWebhookHandler false ⟨"POST", some "bad-sig", "evt"⟩ []).status = 400 ∧
    (edgeWebhookHandler false ⟨"POST", some "bad-sig", "evt"⟩ []).db = [] := by
  have h := claim_C4_signature_error ⟨"POST", some "bad-sig", "evt"⟩ [] rfl (by simp)
  exact ⟨by simp, h.2.2.1, h.2.2.2⟩

/-- C2 counterexample: running the migration runner on one concrete
migration from an empty ledger, each committed `runSQL` transaction is a
single statement; the transaction that consults the ledger is a different
one from the transaction that applies the migration, so the ledger is not
consulted inside the same transaction that applies the migration,
contrary to the claim. -/
theorem claim_C2_counterexample :
    (runMigrations [("0001_init", "create table t")] (fun _ => true) []).trace =
      [SqlTxn.setup, SqlTxn.readLedger,
        SqlTxn.applyMigration "0001_init" "create table t",
        SqlTxn.recordMigration "0001_init"] ∧
    (runMigrations [("0001_init", "create table t")] (fun _ => true) []).trace.any
        appliesMigration = true ∧
    (runMigrations [("0001_init", "create table t")] (fun _ => true) []).trace.all
        (fun t => !(consultsLedger t && appliesMigration t)) = true := by
  refine ⟨?_, ?_, ?_⟩ <;> rfl

/-- C2 (amended): with pairwise-distinct migration names, the runner
(a) consults the ledger once, in its own transaction, before every
migration-applying transaction; (b) applies each migration at most once
per invocation; (c) never applies a migration recorded in the ledger it
read; and (d) when every SQL registered under a pending name fails, the
invocation fails and that name is not inserted into the ledger. -/
theorem claim_C2_migrations_amended (migs : List (String × String))
    (sqlOk : String → Bool) (initLedger : List String)
    (hnd : (migs.map Prod.fst).Nodup) :
    (∃ rest, (runMigrations migs sqlOk initLedger).trace =
        SqlTxn.setup :: SqlTxn.readLedger :: rest ∧
        rest.all (fun t => !(consultsLedger t)) = true) ∧
    (∀ n, (runMigrations migs sqlOk initLedger).executed.count n ≤ 1) ∧
    (∀ n, n ∈ initLedger → n ∉ (runMigrations migs sqlOk initLedger).executed) ∧
    (∀ name sql, (name, sql) ∈ migs →
      (∀ s, (name, s) ∈ migs → sqlOk s = false) → name ∉ initLedger →
      (∃ msg, (runMigrations migs sqlOk initLedger).result = Except.error msg) ∧
        name ∉ (runMigrations migs sqlOk initLedger).ledger) := by
  refine ⟨?_, ?_, ?_, ?_⟩
  · obtain ⟨d, hd, hall⟩ := runMigsLoop_trace sqlOk initLedger migs initLedger [] [] []
      [SqlTxn.setup, SqlTxn.readLedger]
    exact ⟨d, by simpa [runMigrations] using hd, hall⟩
  · intro n
    obtain ⟨d, hd, hsub, _⟩ := runMigsLoop_executed sqlOk initLedger migs initLedger
      [] [] [] [SqlTxn.setup, SqlTxn.readLedger]
    have hnodup : d.Nodup := List.Nodup.sublist hsub hnd
    have : (runMigrations migs sqlOk initLedger).executed = d := by
      simpa [runMigrations] using hd
    rw [this]
    exact List.nodup_iff_count_le_one.mp hnodup n
  · intro n hmem
    obtain ⟨d, hd, _, hp⟩ := runMigsLoop_executed sqlOk initLedger migs initLedger
      [] [] [] [SqlTxn.setup, SqlTxn.readLedger]
    have hrw : (runMigrations migs sqlOk initLedger).executed = d := by
      simpa [runMigrations] using hd
    rw [hrw]
    intro hcontra
    exact (hp n hcontra).1 hmem
  · intro name sql hmemMig hfail hfresh
    refine ⟨?_, ?_⟩
    · exact runMigsLoop_fail sqlOk initLedger migs initLedger [] [] []
        [SqlTxn.setup, SqlTxn.readLedger] name sql hmemMig hfail hfresh
    · intro hled
      rcases runMigsLoop_ledger_mem sqlOk initLedger migs initLedger [] [] []
          [SqlTxn.setup, SqlTxn.readLedger] name hled with h | h
      · exact hfresh h
      · obtain ⟨d, hd, _, hp⟩ := runMigsLoop_executed sqlOk initLedger migs initLedger
          [] [] [] [SqlTxn.setup, SqlTxn.readLedger]
        rw [hd, List.nil_append] at h
        obtain ⟨_, s, hmem', hok⟩ := hp name h
        have := hfail s hmem'
        rw [this] at hok
        cases hok

/-- C2 witness: the amended theorem applied to two concrete migrations of
which the second one's SQL fails. -/
theorem claim_C2_migrations_amended_witness :
    (([("0001_a", "good"), ("0002_b", "bad")].map Prod.fst).Nodup) ∧
    (runMigrations [("0001_a", "good"), ("0002_b", "bad")]
        (fun s => s == "good") []).executed.count "0002_b" ≤ 1 := by
  refine ⟨by decide, ?_⟩
  exact (claim_C2_migrations_amended [("0001_a", "good"), ("0002_b", "bad")]
    (fun s => s == "good") [] (by decide)).2.1 "0002_b"

/-- C3: with the advisory lock serializing concurrent callers, N ≥ 1
invocations of `findOrCreateManagedWebhook(baseUrl)` on the same account,
from a state that has no endpoint or local row for that URL yet, leave
exactly one provider endpoint and exactly one `_managed_webhooks` row of
the account with `url = baseUrl` and `metadata.managed_by =
"stripe-sync"`, and every call returns the same webhook (the endpoint
that the first call created). -/
theorem claim_C3_findOrCreate_idempotent (st : WebhookState) (acct baseUrl : String)
    (n : Nat) (hclean : cleanFor st acct baseUrl) (hn : 1 ≤ n) :
    countProviderMatches (iterateFindOrCreate acct baseUrl n st).2 acct baseUrl = 1 ∧
    countLocalMatches (iterateFindOrCreate acct baseUrl n st).2 acct baseUrl = 1 ∧
    (iterateFindOrCreate acct baseUrl n st).1.length = n ∧
    ∀ e ∈ (iterateFindOrCreate acct baseUrl n st).1, e = newEndpoint st acct baseUrl := by
  obtain ⟨m, rfl⟩ : ∃ m, n = m + 1 := ⟨n - 1, by omega⟩
  have hstable := stable_after_create st acct baseUrl hclean
  have hcounts := counts_after_create st acct baseUrl hclean
  have hstep : iterateFindOrCreate acct baseUrl (m + 1) st =
      (newEndpoint st acct baseUrl :: List.replicate m (newEndpoint st acct baseUrl),
        (findOrCreateManagedWebhook acct baseUrl st).2) := by
    simp only [iterateFindOrCreate]
    rw [iterate_of_stable acct baseUrl (newEndpoint st acct baseUrl) m
        (findOrCreateManagedWebhook acct baseUrl st).2 hstable,
      findOrCreate_of_clean st acct baseUrl hclean]
  rw [hstep]
  refine ⟨hcounts.1, hcounts.2, by simp, ?_⟩
  intro e hmem
  rcases List.mem_cons.mp hmem with h | h
  · exact h
  · exact List.eq_of_mem_replicate h

/-- C3 witness: two serialized invocations from the empty state. -/
theorem claim_C3_findOrCreate_idempotent_witness :
    cleanFor ⟨[], [], 0⟩ "acct_1" "https://x.example/stripe-webhooks" ∧
    countProviderMatches
      (iterateFindOrCreate "acct_1" "https://x.example/stripe-webhooks" 2 ⟨[], [], 0⟩).2
      "acct_1" "https://x.example/stripe-webhooks" = 1 ∧
    ∀ e ∈ (iterateFindOrCreate "acct_1" "https://x.example/stripe-webhooks" 2
        ⟨[], [], 0⟩).1,
      e = newEndpoint ⟨[], [], 0⟩ "acct_1" "https://x.example/stripe-webhooks" := by
  have hclean : cleanFor ⟨[], [], 0⟩ "acct_1" "https://x.example/stripe-webhooks" := by
    refine ⟨?_, ?_, ?_⟩ <;> intro x hx <;> cases hx
  have h := claim_C3_findOrCreate_idempotent ⟨[], [], 0⟩ "acct_1"
    "https://x.example/stripe-webhooks" 2 hclean (by omega)
  exact ⟨hclean, h.1, h.2.2.2⟩

/-- C7 counterexample: at a concrete state with no valid pair for the
requested URL, a provider endpoint of the account whose description is
the backward-compatible `"Stripe Sync Development"` but which is
referenced by a `_managed_webhooks` row (for a different URL) is NOT
deleted by `findOrCreateManagedWebhook`: cross-orphan cleanup only
deletes endpoints that do not appear locally, so the claim as stated is
false. -/
theorem claim_C7_counterexample :
    legacyDescMatch (some "Stripe Sync Development") = true ∧
    validPairs
      (reconcile ⟨[⟨"we_0", "https://old.example/hook", none,
          some "Stripe Sync Development", "acct_1"⟩],
        [⟨"we_0", "acct_1", "https://old.example/hook"⟩], 1⟩
        "acct_1" "https://new.example/hook")
      "acct_1" "https://new.example/hook" = [] ∧
    (⟨"we_0", "https://old.example/hook", none, some "Stripe Sync Development",
        "acct_1"⟩ : Endpoint) ∈
      (findOrCreateManagedWebhook "acct_1" "https://new.example/hook"
        ⟨[⟨"we_0", "https://old.example/hook", none, some "Stripe Sync Development",
            "acct_1"⟩],
          [⟨"we_0", "acct_1", "https://old.example/hook"⟩], 1⟩).2.provider := by
  refine ⟨?_, ?_, ?_⟩ <;> decide

/-- C7 (amended): when no valid (local, provider) pair remains for the
requested URL, `findOrCreateManagedWebhook` deletes every provider-side
endpoint of this account whose description matches the
backward-compatible formats and whose id does not appear in the local
`_managed_webhooks` rows, before creating the new endpoint. -/
theorem claim_C7_legacy_cleanup (st : WebhookState) (acct baseUrl : String)
    (hnv : validPairs (reconcile st acct baseUrl) acct baseUrl = []) :
    ∀ e ∈ (reconcile st acct baseUrl).provider, e.account_id = acct →
      legacyDescMatch e.description = true →
      (∀ r ∈ (reconcile st acct baseUrl).localRows, r.id ≠ e.id) →
      e ∉ (findOrCreateManagedWebhook acct baseUrl st).2.provider := by
  intro e hmem hacct hlegacy hnotlocal hin
  simp only [findOrCreateManagedWebhook, hnv] at hin
  rcases List.mem_append.mp hin with h | h
  · have h' : e ∈ (reconcile st acct baseUrl).provider.filter (fun x =>
        !(x.account_id == acct &&
          !(((reconcile st acct baseUrl).localRows.map LocalRow.id).contains x.id) &&
          (x.managedBy == some "stripe-sync" || legacyDescMatch x.description))) := h
    have hpred := (List.mem_filter.mp h').2
    have hcont : (((reconcile st acct baseUrl).localRows.map LocalRow.id).contains
        e.id) = false := by
      rw [Bool.eq_false_iff]
      intro hc
      obtain ⟨r, hr, hrid⟩ := List.mem_map.mp (List.elem_iff.mp hc)
      exact hnotlocal r hr hrid
    have hcond : (e.account_id == acct &&
        !(((reconcile st acct baseUrl).localRows.map LocalRow.id).contains e.id) &&
        (e.managedBy == some "stripe-sync" || legacyDescMatch e.description)) = true := by
      rw [hcont, hlegacy]
      simp [hacct]
    rw [hcond] at hpred
    simp at hpred
  · rw [List.mem_singleton] at h
    have hfalse : legacyDescMatch (some "Stripe Sync managed webhook") = false := by decide
    rw [h] at hlegacy
    exact Bool.noConfusion (hfalse ▸ hlegacy)

/-- C7 witness: the amended theorem applied to a concrete state: an
orphaned endpoint with the whitespace-normalized legacy description
`"stripe  sync"`, not referenced locally, is deleted. -/
theorem claim_C7_legacy_cleanup_witness :
    validPairs (reconcile ⟨[⟨"we_9", "https://u.example/x", none, some "stripe  sync",
        "acct_1"⟩], [], 0⟩ "acct_1" "https://b.example/hook") "acct_1"
      "https://b.example/hook" = [] ∧
    legacyDescMatch (some "stripe  sync") = true ∧
    (⟨"we_9", "https://u.example/x", none, some "stripe  sync", "acct_1"⟩ : Endpoint) ∉
      (findOrCreateManagedWebhook "acct_1" "https://b.example/hook"
        ⟨[⟨"we_9", "https://u.example/x", none, some "stripe  sync", "acct_1"⟩],
          [], 0⟩).2.provider := by
  refine ⟨by decide, by decide, ?_⟩
  exact claim_C7_legacy_cleanup
    ⟨[⟨"we_9", "https://u.example/x", none, some "stripe  sync", "acct_1"⟩], [], 0⟩
    "acct_1" "https://b.example/hook" (by decide)
    ⟨"we_9", "https://u.example/x", none, some "stripe  sync", "acct_1"⟩
    (by decide) rfl (by decide) (by decide)

end StripeSyncEngine
